import Mathlib

/-!
Verification development for the glimmer-vm runtime core: a shallow
embedding of the attribute change-list layer, the environment transaction
protocol, the scope model, statement refinement, path references and the
dirtyable tag model, together with theorems settling the specification
claims about them.
-/

namespace Glimmer

/-! ## JavaScript value model

Values flowing through the runtime (`Opaque` in the source).  Objects are
modelled by reference: an object value carries a numeric identity and its
fields live in a separate heap, so JavaScript strict equality on objects is
structural equality of identities here. -/

inductive JSValue where
  | undefined
  | null
  | bool (b : Bool)
  | num (n : Int)
  | str (s : String)
  | obj (id : Nat)
deriving DecidableEq, Repr

/-- A heap assigning fields to object identities. -/
abbrev JSHeap := List (Nat × List (String × JSValue))

/-- JavaScript truthiness of a value. -/
def truthy : JSValue → Bool
  | .undefined => false
  | .null => false
  | .bool b => b
  | .num n => n != 0
  | .str s => s != ""
  | .obj _ => true

/-! ## Association-list helpers (attribute and property tables) -/

/-- Look a key up in an association list. -/
def lookupAssoc {κ α : Type} [DecidableEq κ] : List (κ × α) → κ → Option α
  | [], _ => none
  | (k, v) :: rest, key => if k = key then some v else lookupAssoc rest key

/-- Replace the binding of a key, or append it when absent. -/
def setAssoc {κ α : Type} [DecidableEq κ] : List (κ × α) → κ → α → List (κ × α)
  | [], key, v => [(key, v)]
  | (k, w) :: rest, key, v =>
    if k = key then (k, v) :: rest else (k, w) :: setAssoc rest key v

/-- Remove every binding of a key. -/
def removeAssoc {κ α : Type} [DecidableEq κ] : List (κ × α) → κ → List (κ × α)
  | [], _ => []
  | (k, w) :: rest, key =>
    if k = key then removeAssoc rest key else (k, w) :: removeAssoc rest key

/-! ## DOM element model

An element carries its tag name, namespace URI, attribute table (keyed by
an optional namespace together with the attribute name) and property
table.  The change-list strategies below are embedded as functions that
emit the list of DOM writes they perform; `applyWrites` replays such a
trace on an element. -/

structure Element where
  tagName : String
  namespaceURI : Option String
  attrs : List ((Option String × String) × String)
  props : List (String × JSValue)
deriving DecidableEq, Repr

inductive WriteOp where
  | setAttr (ns : Option String) (attr : String) (value : String)
  | removeAttr (ns : Option String) (attr : String)
  | setProp (name : String) (value : JSValue)
deriving DecidableEq, Repr

def applyWrite (el : Element) : WriteOp → Element
  | .setAttr ns a v => { el with attrs := setAssoc el.attrs (ns, a) v }
  | .removeAttr ns a => { el with attrs := removeAssoc el.attrs (ns, a) }
  | .setProp n v => { el with props := setAssoc el.props n v }

def applyWrites (el : Element) (ops : List WriteOp) : Element :=
  ops.foldl applyWrite el

/-- Read an attribute from the element model. -/
def getAttr (el : Element) (ns : Option String) (attr : String) : Option String :=
  lookupAssoc el.attrs (ns, attr)

/-- Read a property from the element model. -/
def getProp (el : Element) (name : String) : Option JSValue :=
  lookupAssoc el.props name

/-- Read a property, `undefined` when absent (JavaScript member access). -/
def getPropD (el : Element) (name : String) : JSValue :=
  (getProp el name).getD .undefined

/-! ## Modelled collaborators

The change-list module under `src/` imports a handful of helpers from
sibling modules of this repository that are not part of `src/`; they are
modelled here from the specification. -/

/-- Modelled from the spec: the SVG namespace constant exported by
`dom/helper` (not under src/); the spec (and the W3C) fix it to the
literal SVG namespace URI. -/
def SVG_NAMESPACE : String := "http://www.w3.org/2000/svg"

/-- Modelled from the spec: `normalizeTextValue` from
`compiled/opcodes/content` (not under src/).  It converts an arbitrary
value to the text written into the DOM: absent values (`null`,
`undefined`) normalize to the empty string and every other value to its
string form. -/
def normalizeTextValue : JSValue → String
  | .undefined => ""
  | .null => ""
  | .bool b => if b then "true" else "false"
  | .num n => toString n
  | .str s => s
  | .obj _ => "[object Object]"

/-- Modelled from the spec: `normalizePropertyValue` from `dom/props`
(not under src/).  The spec does not constrain it beyond being the value
assigned to the DOM property; it is modelled as the identity. -/
def normalizePropertyValue : JSValue → JSValue := fun v => v

/-- Modelled from the spec: `requiresSanitization` from
`dom/sanitized-values` (not under src/).  Per the spec a strategy is
sanitized when the attribute is security-sensitive, e.g. `href`, `src`,
`xlink:href`. -/
def requiresSanitization (_tagName : String) (attr : String) : Bool :=
  attr = "href" || attr = "src" || attr = "xlink:href"

/-- Modelled from the spec: the unsafe-protocol check of the sanitizer in
`dom/sanitized-values` (not under src/). -/
def isBadProtocol (s : String) : Bool :=
  s.startsWith "javascript:" || s.startsWith "vbscript:"

/-- Modelled from the spec: `sanitizeAttributeValue` from
`dom/sanitized-values` (not under src/).  Per §4.3 the value of a
security-sensitive attribute is passed through a sanitizer before being
written; an absent (`null`/`undefined`) value has nothing to sanitize and
is returned unchanged, and a present value is normalized to a string,
prefixed with `unsafe:` when its URL protocol is unsafe. -/
def sanitizeAttributeValue (_el : Element) (_attr : String) (value : JSValue) : JSValue :=
  match value with
  | .null => .null
  | .undefined => .undefined
  | v =>
    let s := normalizeTextValue v
    if isBadProtocol s then .str ("unsafe:" ++ s) else .str s

inductive PropKind where
  | prop
  | attr
deriving DecidableEq, Repr

structure NormalizedProperty where
  type : PropKind
  normalized : String
deriving DecidableEq, Repr

/-- Modelled from the spec: `normalizeProperty` from `dom/props` (not
under src/).  Per §4.3 the property-vs-attribute decision for a
`(tagName, attr)` pair is looked up in a normalization table; the table
here is a stand-in keeping `style` and `data-` attributes as attributes
and mapping everything else to the lower-cased property.  It depends only
on the element tag name and the attribute name. -/
def normalizeProperty (_el : Element) (attr : String) : NormalizedProperty :=
  if attr.toLower = "style" || attr.startsWith "data-" then
    { type := .attr, normalized := attr }
  else
    { type := .prop, normalized := attr.toLower }

/-! ## Change-list strategy selection (`dom/change-lists` under src/) -/

inductive ChangeListKind where
  | property
  | plainAttribute
  | safeHrefProperty
  | safeHrefAttribute
  | inputValue
deriving DecidableEq, Repr

def isUserInputValue (tagName : String) (attrName : String) : Bool :=
  (tagName = "INPUT" || tagName = "TEXTAREA") && attrName = "value"

def defaultPropertyChangeLists (tagName : String) (attr : String) : ChangeListKind :=
  if requiresSanitization tagName attr then
    .safeHrefProperty
  else if isUserInputValue tagName attr then
    .inputValue
  else
    .property

def defaultAttributeChangeLists (tagName : String) (attr : String) : ChangeListKind :=
  if requiresSanitization tagName attr then
    .safeHrefAttribute
  else
    .plainAttribute

def defaultChangeLists (element : Element) (attr : String)
    (_isTrusting : Bool) (_ns : Option String) : ChangeListKind :=
  let tagName := element.tagName
  let isSVG := element.namespaceURI = some SVG_NAMESPACE
  if isSVG then
    defaultAttributeChangeLists tagName attr
  else
    match (normalizeProperty element attr).type with
    | .attr => defaultAttributeChangeLists tagName attr
    | .prop => defaultPropertyChangeLists tagName attr

/-! ## Change-list strategy behaviour

Each strategy method is embedded as the list of DOM writes it performs;
methods that consult the live element (the input-value strategy) take the
element as an argument. -/

/-- Truthiness of the optional namespace argument (`if (namespace)`). -/
def nsTruthy : Option String → Bool
  | none => false
  | some s => s != ""

namespace PropertyChangeList

def setAttribute (attr : String) (value : JSValue) : List WriteOp :=
  if value = .null then []
  else [.setProp attr.toLower (normalizePropertyValue value)]

def updateAttribute (attr : String) (value : JSValue) : List WriteOp :=
  if value = .null then [.setProp attr.toLower .null]
  else setAttribute attr value

end PropertyChangeList

namespace AttributeChangeList

def setAttribute (attr : String) (value : JSValue) (ns : Option String) : List WriteOp :=
  if value = .null ∨ value = .undefined then []
  else [.setAttr ns attr (normalizeTextValue value)]

def updateAttribute (attr : String) (value : JSValue) (ns : Option String) : List WriteOp :=
  if value = .null then
    if nsTruthy ns then [.removeAttr ns attr] else [.removeAttr none attr]
  else
    -- the source drops the namespace when delegating to setAttribute here
    setAttribute attr value none

end AttributeChangeList

namespace InputValuePropertyChangeList

def setAttribute (el : Element) (value : JSValue) : List WriteOp :=
  let currentValue := getPropD el "value"
  let normalizedValue := normalizeTextValue value
  if currentValue = .str normalizedValue then []
  else [.setProp "value" (.str normalizedValue)]

def updateAttribute (el : Element) (value : JSValue) : List WriteOp :=
  let currentValue := getPropD el "value"
  let normalizedValue := normalizeTextValue value
  if currentValue = .str normalizedValue then []
  else [.setProp "value" (.str normalizedValue)]

end InputValuePropertyChangeList

namespace SafeHrefPropertyChangeList

def setAttribute (el : Element) (attr : String) (value : JSValue) : List WriteOp :=
  PropertyChangeList.setAttribute attr (sanitizeAttributeValue el attr value)

def updateAttribute (el : Element) (attr : String) (value : JSValue) : List WriteOp :=
  setAttribute el attr value

end SafeHrefPropertyChangeList

namespace SafeHrefAttributeChangeList

def setAttribute (el : Element) (attr : String) (value : JSValue) : List WriteOp :=
  AttributeChangeList.setAttribute attr (sanitizeAttributeValue el attr value) none

def updateAttribute (el : Element) (attr : String) (value : JSValue) : List WriteOp :=
  setAttribute el attr value

end SafeHrefAttributeChangeList

/-! ## Transaction (`environment.ts` under src/)

The transaction keeps five queues; component and modifier queues are pairs
of parallel arrays pushed in lockstep.  Components, managers, modifiers
and destroyables are represented by numeric identities; `commit` is
embedded as the sequence of lifecycle callbacks it invokes. -/

structure Transaction where
  scheduledInstallManagers : List Nat
  scheduledInstallModifiers : List Nat
  scheduledUpdateModifierManagers : List Nat
  scheduledUpdateModifiers : List Nat
  createdComponents : List Nat
  createdManagers : List Nat
  updatedComponents : List Nat
  updatedManagers : List Nat
  destructors : List Nat
deriving DecidableEq, Repr

def emptyTransaction : Transaction :=
  ⟨[], [], [], [], [], [], [], [], []⟩

def Transaction.didCreate (t : Transaction) (component manager : Nat) : Transaction :=
  { t with
    createdComponents := t.createdComponents ++ [component]
    createdManagers := t.createdManagers ++ [manager] }

def Transaction.didUpdate (t : Transaction) (component manager : Nat) : Transaction :=
  { t with
    updatedComponents := t.updatedComponents ++ [component]
    updatedManagers := t.updatedManagers ++ [manager] }

def Transaction.scheduleInstallModifier (t : Transaction) (modifier manager : Nat) : Transaction :=
  { t with
    scheduledInstallManagers := t.scheduledInstallManagers ++ [manager]
    scheduledInstallModifiers := t.scheduledInstallModifiers ++ [modifier] }

def Transaction.scheduleUpdateModifier (t : Transaction) (modifier manager : Nat) : Transaction :=
  { t with
    scheduledUpdateModifierManagers := t.scheduledUpdateModifierManagers ++ [manager]
    scheduledUpdateModifiers := t.scheduledUpdateModifiers ++ [modifier] }

def Transaction.didDestroy (t : Transaction) (d : Nat) : Transaction :=
  { t with destructors := t.destructors ++ [d] }

/-- A lifecycle callback invocation performed at commit time. -/
inductive LifecycleEvent where
  | didCreate (component manager : Nat)
  | didUpdate (component manager : Nat)
  | destroy (d : Nat)
  | install (modifier manager : Nat)
  | update (modifier manager : Nat)
deriving DecidableEq, Repr

/-- The callbacks `Transaction.commit` invokes, in order.  Each loop of the
source iterates the first list of a queue by index reading the parallel
list at the same index, which is `zip` here. -/
def Transaction.commit (t : Transaction) : List LifecycleEvent :=
  (t.createdComponents.zip t.createdManagers).map (fun p => .didCreate p.1 p.2)
  ++ (t.updatedComponents.zip t.updatedManagers).map (fun p => .didUpdate p.1 p.2)
  ++ t.destructors.map .destroy
  ++ (t.scheduledInstallManagers.zip t.scheduledInstallModifiers).map (fun p => .install p.2 p.1)
  ++ (t.scheduledUpdateModifierManagers.zip t.scheduledUpdateModifiers).map (fun p => .update p.2 p.1)

/-- A registration performed on the open transaction during a render pass. -/
inductive LifecycleOp where
  | didCreate (component manager : Nat)
  | didUpdate (component manager : Nat)
  | scheduleInstallModifier (modifier manager : Nat)
  | scheduleUpdateModifier (modifier manager : Nat)
  | didDestroy (d : Nat)
deriving DecidableEq, Repr

def applyOp (t : Transaction) : LifecycleOp → Transaction
  | .didCreate c m => t.didCreate c m
  | .didUpdate c m => t.didUpdate c m
  | .scheduleInstallModifier mo m => t.scheduleInstallModifier mo m
  | .scheduleUpdateModifier mo m => t.scheduleUpdateModifier mo m
  | .didDestroy d => t.didDestroy d

def applyOps (t : Transaction) (ops : List LifecycleOp) : Transaction :=
  ops.foldl applyOp t

/-- The didCreate callbacks a registration sequence queues, in FIFO order. -/
def createEvents (ops : List LifecycleOp) : List LifecycleEvent :=
  ops.filterMap fun op =>
    match op with
    | .didCreate c m => some (.didCreate c m)
    | _ => none

def updateEvents (ops : List LifecycleOp) : List LifecycleEvent :=
  ops.filterMap fun op =>
    match op with
    | .didUpdate c m => some (.didUpdate c m)
    | _ => none

def destroyEvents (ops : List LifecycleOp) : List LifecycleEvent :=
  ops.filterMap fun op =>
    match op with
    | .didDestroy d => some (.destroy d)
    | _ => none

def installEvents (ops : List LifecycleOp) : List LifecycleEvent :=
  ops.filterMap fun op =>
    match op with
    | .scheduleInstallModifier mo m => some (.install mo m)
    | _ => none

def modifierUpdateEvents (ops : List LifecycleOp) : List LifecycleEvent :=
  ops.filterMap fun op =>
    match op with
    | .scheduleUpdateModifier mo m => some (.update mo m)
    | _ => none

/-! ## Environment transaction discipline (`environment.ts` under src/)

`assert` and `expect` of glimmer-util throw on violation; fatal errors are
embedded as `Except.error` carrying the assertion message.  The
environment also carries the set of registered user helper names so that
helper-independence of statement refinement can be stated. -/

structure Environment where
  transactionSlot : Option Transaction
  helperNames : List String
deriving DecidableEq, Repr

def Environment.begin (env : Environment) : Except String Environment :=
  match env.transactionSlot with
  | some _ => .error "Cannot start a nested transaction"
  | none => .ok { env with transactionSlot := some emptyTransaction }

/-- The private `transaction` getter (`expect` fails fatally when no
transaction is open). -/
def Environment.currentTransaction (env : Environment) : Except String Transaction :=
  match env.transactionSlot with
  | none => .error "must be in a transaction"
  | some t => .ok t

def Environment.didCreate (env : Environment) (c m : Nat) : Except String Environment :=
  (env.currentTransaction).map fun t =>
    { env with transactionSlot := some (t.didCreate c m) }

def Environment.didUpdate (env : Environment) (c m : Nat) : Except String Environment :=
  (env.currentTransaction).map fun t =>
    { env with transactionSlot := some (t.didUpdate c m) }

def Environment.scheduleInstallModifier (env : Environment) (mo m : Nat) : Except String Environment :=
  (env.currentTransaction).map fun t =>
    { env with transactionSlot := some (t.scheduleInstallModifier mo m) }

def Environment.scheduleUpdateModifier (env : Environment) (mo m : Nat) : Except String Environment :=
  (env.currentTransaction).map fun t =>
    { env with transactionSlot := some (t.scheduleUpdateModifier mo m) }

def Environment.didDestroy (env : Environment) (d : Nat) : Except String Environment :=
  (env.currentTransaction).map fun t =>
    { env with transactionSlot := some (t.didDestroy d) }

/-- `commit()` runs the queued callbacks and discards the transaction. -/
def Environment.commit (env : Environment) : Except String (List LifecycleEvent × Environment) :=
  (env.currentTransaction).map fun t =>
    (t.commit, { env with transactionSlot := none })

/-! ## Scope (`environment.ts` under src/)

A scope slot holds a path reference, an inline block, or an evaluated
argument set; the payloads are numeric identities.  The slot arrays live
in a store (heap) and a scope holds a pointer to its array, so in-place
slot mutation and the `slice()` copy made by `child()` are both explicit:
two scopes alias exactly when they hold the same pointer. -/

inductive ScopeSlot where
  | ref (id : Nat)
  | block (id : Nat)
  | evaluatedArgs (id : Nat)
deriving DecidableEq, Repr

abbrev SlotArray := List ScopeSlot

/-- The heap of slot arrays; a scope holds an index into it. -/
abbrev Store := List SlotArray

inductive Scope where
  | mk (slotsPtr : Nat) (callerScope : Option Scope)

def Scope.slotsPtr : Scope → Nat
  | .mk p _ => p

def Scope.getCallerScope : Scope → Option Scope
  | .mk _ c => c

def Scope.bindCallerScope : Scope → Scope → Scope
  | .mk p _, caller => .mk p (some caller)

/-- Read the slot array a scope points at. -/
def Store.readArr (σ : Store) (p : Nat) : SlotArray :=
  σ.getD p []

/-- `this.slots[symbol]` with the cast the source applies; the three
getters getSymbol/getBlock/getPartialArgs all index the slot array. -/
def Scope.getSlot (s : Scope) (σ : Store) (n : Nat) : Option ScopeSlot :=
  (σ.readArr s.slotsPtr).get? n

/-- `this.slots[symbol] = value` in-place slot mutation. -/
def Scope.bindSlot (s : Scope) (σ : Store) (n : Nat) (v : ScopeSlot) : Store :=
  σ.set s.slotsPtr ((σ.readArr s.slotsPtr).set n v)

def Scope.bindSymbol (s : Scope) (σ : Store) (n : Nat) (refId : Nat) : Store :=
  s.bindSlot σ n (.ref refId)

def Scope.bindBlock (s : Scope) (σ : Store) (n : Nat) (blockId : Nat) : Store :=
  s.bindSlot σ n (.block blockId)

def Scope.bindPartialArgs (s : Scope) (σ : Store) (n : Nat) (argsId : Nat) : Store :=
  s.bindSlot σ n (.evaluatedArgs argsId)

/-- `child()` allocates a fresh copy (`slice()`) of the slot array and
shares the caller-scope pointer. -/
def Scope.child (s : Scope) (σ : Store) : Store × Scope :=
  (σ ++ [σ.readArr s.slotsPtr], .mk σ.length s.getCallerScope)

/-! ## Statement refinement (`environment.ts` under src/) -/

/-- A compiled argument set, by identity. -/
structure Args where
  id : Nat
deriving DecidableEq, Repr

def Args.empty : Args := ⟨0⟩

/-- The value of an optimized append statement. -/
inductive AppendValue where
  | unknown (parts : List (Option String))
  | get (parts : List (Option String))
  | helperCall (parts : List (Option String)) (args : Args)
  | otherValue (id : Nat)
deriving DecidableEq, Repr

/-- Statement syntax nodes, by shape; `otherStmt` covers every remaining
statement type. -/
inductive Stmt where
  | block (path : List (Option String)) (args : Args) (id : Nat)
  | optimizedAppend (value : AppendValue) (id : Nat)
  | modifierStmt (path : List (Option String)) (args : Args) (id : Nat)
  | otherStmt (id : Nat)
deriving DecidableEq, Repr

structure ParsedStatement where
  isSimple : Bool
  path : Option (List (Option String))
  key : Option String
  args : Option Args
  isInline : Bool
  isBlock : Bool
  isModifier : Bool
  original : Stmt
deriving DecidableEq, Repr

def parseStatement (statement : Stmt) : ParsedStatement :=
  let pathArgs : Option (List (Option String)) × Option Args :=
    match statement with
    | .block path args _ => (some path, some args)
    | .optimizedAppend (.unknown parts) _ => (some parts, some Args.empty)
    | .optimizedAppend (.get parts) _ => (some parts, some Args.empty)
    | .optimizedAppend (.helperCall parts args) _ => (some parts, some args)
    | .optimizedAppend (.otherValue _) _ => (none, none)
    | .modifierStmt path args _ => (some path, some args)
    | .otherStmt _ => (none, none)
  let path := pathArgs.1
  let isSimple :=
    match path with
    | some p => p.length = 1
    | none => false
  let key : Option String :=
    match path with
    | some p => (p.get? 0).join
    | none => none
  { isSimple
    path
    key
    args := pathArgs.2
    isInline := match statement with | .optimizedAppend _ _ => true | _ => false
    isBlock := match statement with | .block _ _ _ => true | _ => false
    isModifier := match statement with | .modifierStmt _ _ _ => true | _ => false
    original := statement }

/-- The specialized built-in control-flow syntax nodes. -/
inductive RefinedStmt where
  | eachNode (args : Args)
  | ifNode (args : Args)
  | withNode (args : Args)
  | unlessNode (args : Args)
deriving DecidableEq, Repr

/-- `Environment.refineStatement`; the `switch` on the key is written as
the equivalent chain of equality tests. -/
def refineStatement (p : ParsedStatement) : Option RefinedStmt :=
  match p.args with
  | some args =>
    if p.isSimple ∧ p.isBlock then
      if p.key = some "each" then some (.eachNode args)
      else if p.key = some "if" then some (.ifNode args)
      else if p.key = some "with" then some (.withNode args)
      else if p.key = some "unless" then some (.unlessNode args)
      else none
    else none
  | none => none

inductive StatementResult where
  | refined (r : RefinedStmt)
  | original (s : Stmt)
deriving DecidableEq, Repr

/-- `Environment.statement`: the refined node when refinement applies,
otherwise the original statement (`refineStatement(...) || statement`). -/
def Environment.statement (_env : Environment) (s : Stmt) : StatementResult :=
  match refineStatement (parseStatement s) with
  | some r => .refined r
  | none => .original s

/-! ## Path references (`abstract-test-case.ts` under src/) -/

/-- A reference: a root reference wrapping a value, or a path reference
built from a parent reference and a key
(`SimpleRootReference`/`SimplePathReference`). -/
inductive SimpleRef where
  | root (v : JSValue)
  | path (parent : SimpleRef) (key : String)

/-- Read a field of an object value out of the heap, `undefined` when
absent. -/
def readField (heap : JSHeap) (id : Nat) (key : String) : JSValue :=
  match lookupAssoc heap id with
  | some fields => (lookupAssoc fields key).getD .undefined
  | none => .undefined

/-- JavaScript member access `base[key]`: throws a TypeError on a
`null`/`undefined` base, reads a field on an object, and yields
`undefined` on other primitives. -/
def propAccess (heap : JSHeap) (base : JSValue) (key : String) : Except String JSValue :=
  match base with
  | .null => .error "TypeError"
  | .undefined => .error "TypeError"
  | .obj id => .ok (readField heap id key)
  | _ => .ok .undefined

/-- `value()`: a root reference returns its object; a path reference
evaluates `parentValue && parentValue[key]` — the parent value itself when
it is falsy, the member access otherwise. -/
def SimpleRef.value (heap : JSHeap) : SimpleRef → Except String JSValue
  | .root v => .ok v
  | .path parent key =>
    match parent.value heap with
    | .error e => .error e
    | .ok parentValue =>
      if truthy parentValue then propAccess heap parentValue key
      else .ok parentValue

/-- A value is absent when it is `null` or `undefined`. -/
def isAbsent : JSValue → Bool
  | .null => true
  | .undefined => true
  | _ => false

/-! ## Dirtyable tags and versioned objects

`VersionedObject` is in `abstract-test-case.ts` under src/; the
`DirtyableTag` it dirties comes from the reference package, which is not
under src/. -/

/-- Modelled from the spec: `DirtyableTag` of the reference package (not
under src/).  Per §3 a tag is a monotonic revision counter: `value()`
reports the revision at which the tag was last dirtied, and dirtying
advances a global revision counter and stamps the tag with it. -/
structure DirtyableTag where
  revision : Nat
deriving DecidableEq, Repr

/-- Dirty a tag: advance the global revision and stamp the tag.  Returns
the new tag and the new global revision. -/
def DirtyableTag.dirty (_t : DirtyableTag) (globalRevision : Nat) : DirtyableTag × Nat :=
  (⟨globalRevision + 1⟩, globalRevision + 1)

/-- The revision a tag reports. -/
def DirtyableTag.value (t : DirtyableTag) : Nat :=
  t.revision

structure VersionedObject where
  tag : DirtyableTag
  fields : List (String × JSValue)
deriving DecidableEq, Repr

/-- `set(key, value)`: assign the field, then `dirty()`. -/
def VersionedObject.set (o : VersionedObject) (globalRevision : Nat)
    (key : String) (v : JSValue) : VersionedObject × Nat :=
  let o1 := { o with fields := setAssoc o.fields key v }
  let td := o1.tag.dirty globalRevision
  ({ o1 with tag := td.1 }, td.2)

/-- `update(value)`: `assign` the new fields onto the object, then
`dirty()`. -/
def VersionedObject.update (o : VersionedObject) (globalRevision : Nat)
    (newFields : List (String × JSValue)) : VersionedObject × Nat :=
  let o1 := { o with
    fields := newFields.foldl (fun fs (kv : String × JSValue) => setAssoc fs kv.1 kv.2) o.fields }
  let td := o1.tag.dirty globalRevision
  ({ o1 with tag := td.1 }, td.2)

/-! ## List helper lemmas -/

theorem list_getD_append {α : Type} (l : List α) (x d : α) (p : Nat) (h : p < l.length) :
    (l ++ [x]).getD p d = l.getD p d := by
  induction l generalizing p with
  | nil => simp at h
  | cons a t ih =>
    cases p with
    | zero => simp
    | succ q =>
      simp only [List.cons_append, List.getD_cons_succ]
      exact ih q (by simpa using h)

theorem list_getD_set_ne {α : Type} (l : List α) (i j : Nat) (x : α) (d : α) (h : i ≠ j) :
    (l.set i x).getD j d = l.getD j d := by
  induction l generalizing i j with
  | nil => simp
  | cons a t ih =>
    cases i with
    | zero =>
      cases j with
      | zero => exact absurd rfl h
      | succ jq => simp
    | succ iq =>
      cases j with
      | zero => simp
      | succ jq =>
        simp only [List.set_cons_succ, List.getD_cons_succ]
        exact ih iq jq (fun hh => h (by rw [hh]))

/-! ## Claim theorems -/

/-- Claim C2: `begin()` with a transaction already open fails with the
nested-transaction assertion; `commit`, `didCreate`, `didUpdate`,
`scheduleInstallModifier`, `scheduleUpdateModifier` and `didDestroy` with
no open transaction fail with the must-be-in-a-transaction assertion; and
a successful `commit()` discards the transaction, after which `begin()`
succeeds with a fresh empty transaction. -/
theorem environment_transaction_discipline
    (t : Transaction) (helpers : List String) (c m mo mg d : Nat) :
    (Environment.begin ⟨some t, helpers⟩ = .error "Cannot start a nested transaction")
    ∧ (Environment.commit ⟨none, helpers⟩ = .error "must be in a transaction")
    ∧ (Environment.didCreate ⟨none, helpers⟩ c m = .error "must be in a transaction")
    ∧ (Environment.didUpdate ⟨none, helpers⟩ c m = .error "must be in a transaction")
    ∧ (Environment.scheduleInstallModifier ⟨none, helpers⟩ mo mg = .error "must be in a transaction")
    ∧ (Environment.scheduleUpdateModifier ⟨none, helpers⟩ mo mg = .error "must be in a transaction")
    ∧ (Environment.didDestroy ⟨none, helpers⟩ d = .error "must be in a transaction")
    ∧ (Environment.commit ⟨some t, helpers⟩ = .ok (t.commit, ⟨none, helpers⟩))
    ∧ (Environment.begin ⟨none, helpers⟩ = .ok ⟨some emptyTransaction, helpers⟩) :=
  ⟨rfl, rfl, rfl, rfl, rfl, rfl, rfl, rfl, rfl⟩

/-- Claim C8: a path reference whose parent currently has an absent
(`null`/`undefined`) value yields that absent value from `value()` with no
error raised: the guarded member access short-circuits. -/
theorem path_reference_null_propagation
    (heap : JSHeap) (parent : SimpleRef) (key : String) (v : JSValue)
    (hv : parent.value heap = .ok v) (habs : isAbsent v = true) :
    (SimpleRef.path parent key).value heap = .ok v := by
  have htr : truthy v = false := by
    cases v <;> simp_all [isAbsent, truthy]
  simp only [SimpleRef.value, hv, htr]
  simp

/-- Witness for C8 at a root reference holding `null`. -/
theorem path_reference_null_propagation_witness :
    ((SimpleRef.root .null).value [] = .ok .null ∧ isAbsent .null = true)
    ∧ (SimpleRef.path (.root .null) "foo").value [] = .ok .null :=
  ⟨⟨rfl, rfl⟩, path_reference_null_propagation [] (.root .null) "foo" .null rfl rfl⟩

/-- Claim C9: mutating a versioned object through `set` or `update`
dirties its tag, and the revision observed afterwards is strictly greater
than the revision observed before; in particular it never decreases. -/
theorem tag_revision_monotonic
    (o : VersionedObject) (g : Nat) (key : String) (v : JSValue)
    (newFields : List (String × JSValue)) (hwf : o.tag.value ≤ g) :
    (o.tag.value < ((o.set g key v).1).tag.value
      ∧ ((o.set g key v).2 = g + 1))
    ∧ (o.tag.value < ((o.update g newFields).1).tag.value
      ∧ ((o.update g newFields).2 = g + 1)) := by
  simp [VersionedObject.set, VersionedObject.update, DirtyableTag.dirty,
    DirtyableTag.value] at *
  omega

/-- A freshly created versioned object at revision 0, for the C9 witness. -/
def vObj0 : VersionedObject := ⟨⟨0⟩, []⟩

/-- Witness for C9: a freshly created object at global revision 0. -/
theorem tag_revision_monotonic_witness :
    (vObj0.tag.value ≤ 0)
    ∧ ((vObj0.tag.value < ((vObj0.set 0 "name" (.str "x")).1).tag.value
        ∧ (vObj0.set 0 "name" (.str "x")).2 = 0 + 1)
      ∧ (vObj0.tag.value < ((vObj0.update 0 [("name", .str "x")]).1).tag.value
        ∧ (vObj0.update 0 [("name", .str "x")]).2 = 0 + 1)) :=
  ⟨Nat.le_refl 0,
    tag_revision_monotonic vObj0 0 "name" (.str "x") [("name", .str "x")] (Nat.le_refl 0)⟩

/-- Claim C10: `defaultChangeLists` ignores its `isTrusting` and
`namespace` arguments entirely, and the selected strategy depends only on
whether the element is in the SVG namespace, its tag name, and the
attribute name. -/
theorem defaultChangeLists_ignores_trust_and_namespace
    (el el2 : Element) (attr : String) (t1 t2 : Bool) (ns1 ns2 : Option String)
    (htag : el.tagName = el2.tagName)
    (hns : el.namespaceURI = some SVG_NAMESPACE ↔ el2.namespaceURI = some SVG_NAMESPACE) :
    defaultChangeLists el attr t1 ns1 = defaultChangeLists el attr t2 ns2
    ∧ defaultChangeLists el attr t1 ns1 = defaultChangeLists el2 attr t2 ns2 := by
  refine ⟨rfl, ?_⟩
  unfold defaultChangeLists
  rw [htag]
  by_cases h : el2.namespaceURI = some SVG_NAMESPACE
  · have h1 : el.namespaceURI = some SVG_NAMESPACE := hns.mpr h
    simp [h, h1]
  · have h1 : ¬el.namespaceURI = some SVG_NAMESPACE := fun hh => h (hns.mp hh)
    simp [h, h1, normalizeProperty]

/-- Witness for C10: two div elements with different contents and all four
combinations of trust and namespace select the same strategy. -/
theorem defaultChangeLists_ignores_trust_and_namespace_witness :
    ((⟨"DIV", none, [], []⟩ : Element).tagName
        = (⟨"DIV", none, [((none, "id"), "x")], []⟩ : Element).tagName)
    ∧ ((⟨"DIV", none, [], []⟩ : Element).namespaceURI = some SVG_NAMESPACE
        ↔ (⟨"DIV", none, [((none, "id"), "x")], []⟩ : Element).namespaceURI = some SVG_NAMESPACE)
    ∧ (defaultChangeLists ⟨"DIV", none, [], []⟩ "title" true none
        = defaultChangeLists ⟨"DIV", none, [], []⟩ "title" false (some "uri")
      ∧ defaultChangeLists ⟨"DIV", none, [], []⟩ "title" true none
        = defaultChangeLists ⟨"DIV", none, [((none, "id"), "x")], []⟩ "title" false (some "uri")) :=
  ⟨rfl, Iff.rfl,
    defaultChangeLists_ignores_trust_and_namespace
      ⟨"DIV", none, [], []⟩ ⟨"DIV", none, [((none, "id"), "x")], []⟩
      "title" true false none (some "uri") rfl Iff.rfl⟩

/-- An anchor element already carrying an applied href value, and a plain
element with no properties, used as concrete inputs below. -/
def anchorWithHref : Element :=
  ⟨"A", none, [((none, "href"), "http://example.com")], []⟩

def plainDiv : Element := ⟨"DIV", none, [], []⟩

/-- Claim C3: evaluation of the code at the failing input.  The sanitized
attribute strategy delegates `updateAttribute` with `null` to
`setAttribute`, which skips the (sanitized) `null` entirely: no write is
emitted, no `removeAttribute` happens, and the element keeps its
previously applied `href`; the sanitized property strategy likewise emits
no write.  The plain attribute strategy, by contrast, does remove. -/
theorem safeHref_update_null_keeps_attribute :
    SafeHrefAttributeChangeList.updateAttribute anchorWithHref "href" .null = []
    ∧ getAttr (applyWrites anchorWithHref
        (SafeHrefAttributeChangeList.updateAttribute anchorWithHref "href" .null))
        none "href" = some "http://example.com"
    ∧ SafeHrefPropertyChangeList.updateAttribute anchorWithHref "href" .null = []
    ∧ AttributeChangeList.updateAttribute "href" .null none = [.removeAttr none "href"]
    ∧ getAttr (applyWrites anchorWithHref
        (AttributeChangeList.updateAttribute "href" .null none)) none "href" = none :=
  ⟨rfl, rfl, rfl, rfl, rfl⟩

/-- Claim C4, counterexample: the plain property strategy only guards
against strict `null`, so `setAttribute` with `undefined` does assign the
element property — the write trace is nonempty and the element is
mutated. -/
theorem propertyChangeList_setAttribute_undefined_writes :
    PropertyChangeList.setAttribute "title" .undefined = [.setProp "title".toLower .undefined]
    ∧ PropertyChangeList.setAttribute "title" .undefined ≠ []
    ∧ applyWrites plainDiv (PropertyChangeList.setAttribute "title" .undefined) ≠ plainDiv := by
  refine ⟨rfl, ?_, ?_⟩
  · simp [PropertyChangeList.setAttribute, normalizePropertyValue]
  · simp [PropertyChangeList.setAttribute, normalizePropertyValue, applyWrites, applyWrite,
      plainDiv, setAssoc, Element.mk.injEq]

/-- Claim C4 as amended: `setAttribute` skips `null` in every strategy
except input-value; `undefined` is skipped only by the attribute
strategies (plain and sanitized), while the property strategies assign the
property when given `undefined`, and the input-value strategy normalizes
`null`/`undefined` to the empty string and writes it whenever the current
element value differs. -/
theorem setAttribute_null_undefined_behavior
    (attr : String) (ns : Option String) (el : Element) :
    (AttributeChangeList.setAttribute attr .null ns = []
      ∧ AttributeChangeList.setAttribute attr .undefined ns = [])
    ∧ (SafeHrefAttributeChangeList.setAttribute el attr .null = []
      ∧ SafeHrefAttributeChangeList.setAttribute el attr .undefined = [])
    ∧ (PropertyChangeList.setAttribute attr .null = []
      ∧ PropertyChangeList.setAttribute attr .undefined = [.setProp attr.toLower .undefined])
    ∧ (SafeHrefPropertyChangeList.setAttribute el attr .null = []
      ∧ SafeHrefPropertyChangeList.setAttribute el attr .undefined = [.setProp attr.toLower .undefined])
    ∧ (InputValuePropertyChangeList.setAttribute el .null
        = (if getPropD el "value" = .str "" then [] else [.setProp "value" (.str "")])
      ∧ InputValuePropertyChangeList.setAttribute el .undefined
        = (if getPropD el "value" = .str "" then [] else [.setProp "value" (.str "")])) := by
  refine ⟨⟨rfl, rfl⟩, ⟨rfl, rfl⟩, ⟨rfl, rfl⟩, ⟨rfl, rfl⟩, ⟨rfl, rfl⟩⟩

/-- Claim C5: the input-value strategy is selected by
`defaultPropertyChangeLists` exactly for the `value` attribute of `INPUT`
and `TEXTAREA` elements, and both of its methods write the normalized
value to the element only when it differs from the current live value —
when equal, no write is emitted and the element is untouched. -/
theorem input_value_strategy (tagName attrName : String) (el : Element) (v : JSValue) :
    (isUserInputValue tagName attrName = true
      ↔ ((tagName = "INPUT" ∨ tagName = "TEXTAREA") ∧ attrName = "value"))
    ∧ (defaultPropertyChangeLists tagName attrName = .inputValue
      ↔ isUserInputValue tagName attrName = true)
    ∧ (getPropD el "value" = .str (normalizeTextValue v) →
        InputValuePropertyChangeList.setAttribute el v = []
        ∧ InputValuePropertyChangeList.updateAttribute el v = []
        ∧ applyWrites el (InputValuePropertyChangeList.setAttribute el v) = el
        ∧ applyWrites el (InputValuePropertyChangeList.updateAttribute el v) = el)
    ∧ (getPropD el "value" ≠ .str (normalizeTextValue v) →
        InputValuePropertyChangeList.setAttribute el v
          = [.setProp "value" (.str (normalizeTextValue v))]
        ∧ InputValuePropertyChangeList.updateAttribute el v
          = [.setProp "value" (.str (normalizeTextValue v))]) := by
  refine ⟨?_, ?_, ?_, ?_⟩
  · simp [isUserInputValue]
  · by_cases hs : requiresSanitization tagName attrName = true
    · have hne : isUserInputValue tagName attrName = false := by
        simp only [requiresSanitization, Bool.or_eq_true, decide_eq_true_eq] at hs
        rcases hs with (h | h) | h <;> simp [isUserInputValue, h]
      simp [defaultPropertyChangeLists, hs, hne]
    · by_cases hu : isUserInputValue tagName attrName = true
      · simp [defaultPropertyChangeLists, hs, hu]
      · simp [defaultPropertyChangeLists, hs, hu]
  · intro heq
    simp [InputValuePropertyChangeList.setAttribute,
      InputValuePropertyChangeList.updateAttribute, heq, applyWrites]
  · intro hne
    simp [InputValuePropertyChangeList.setAttribute,
      InputValuePropertyChangeList.updateAttribute, hne]

/-- An input element currently holding the value `abc`, for the C5
witness. -/
def inputAbc : Element := ⟨"INPUT", none, [], [("value", .str "abc")]⟩

/-- Witness for C5: on an input holding `abc`, writing `abc` again is a
no-op (element untouched), and writing `xyz` emits exactly the value
write. -/
theorem input_value_strategy_witness :
    (getPropD inputAbc "value" = .str (normalizeTextValue (.str "abc")))
    ∧ (getPropD inputAbc "value" ≠ .str (normalizeTextValue (.str "xyz")))
    ∧ (defaultPropertyChangeLists "INPUT" "value" = .inputValue
      ↔ isUserInputValue "INPUT" "value" = true)
    ∧ (InputValuePropertyChangeList.setAttribute inputAbc (.str "abc") = []
      ∧ applyWrites inputAbc (InputValuePropertyChangeList.setAttribute inputAbc (.str "abc"))
        = inputAbc)
    ∧ InputValuePropertyChangeList.updateAttribute inputAbc (.str "xyz")
      = [.setProp "value" (.str (normalizeTextValue (.str "xyz")))] :=
  ⟨rfl, by decide,
    (input_value_strategy "INPUT" "value" inputAbc (.str "abc")).2.1,
    ⟨((input_value_strategy "INPUT" "value" inputAbc (.str "abc")).2.2.1 rfl).1,
      ((input_value_strategy "INPUT" "value" inputAbc (.str "abc")).2.2.1 rfl).2.2.1⟩,
    ((input_value_strategy "INPUT" "value" inputAbc (.str "xyz")).2.2.2 (by decide)).2⟩

/-- Binding a slot of the freshly allocated child array leaves any scope
pointing into the original store unchanged. -/
theorem getSlot_after_child_bind (σ : Store) (s : Scope) (cs : Option Scope) (a : SlotArray)
    (n m : Nat) (v : ScopeSlot) (h : s.slotsPtr < σ.length) :
    Scope.getSlot s (Scope.bindSlot (.mk σ.length cs) (σ ++ [a]) n v) m
      = Scope.getSlot s σ m := by
  unfold Scope.getSlot Scope.bindSlot Store.readArr
  have hp : Scope.slotsPtr (.mk σ.length cs) = σ.length := rfl
  rw [hp, list_getD_set_ne _ _ _ _ _ (Nat.ne_of_gt h), list_getD_append _ _ _ _ h]

/-- Binding a slot of the parent array leaves the freshly allocated child
array unchanged. -/
theorem getSlot_parent_bind_preserves_child (σ : Store) (s : Scope) (cs : Option Scope)
    (a : SlotArray) (n m : Nat) (v : ScopeSlot) (h : s.slotsPtr < σ.length) :
    Scope.getSlot (.mk σ.length cs) (Scope.bindSlot s (σ ++ [a]) n v) m
      = Scope.getSlot (.mk σ.length cs) (σ ++ [a]) m := by
  unfold Scope.getSlot Scope.bindSlot Store.readArr
  have hp : Scope.slotsPtr (.mk σ.length cs) = σ.length := rfl
  rw [hp, list_getD_set_ne _ _ _ _ _ (Nat.ne_of_lt h)]

/-- Claim C6: a `child()` clone shares the caller-scope pointer with its
parent, and slot mutation is isolated: binding a symbol, block or partial
argument slot of the child (whose slot array is a fresh copy) never
changes what the parent scope reads, and binding a slot of the parent
never changes what the child reads. -/
theorem scope_child_isolation (σ : Store) (s : Scope) (n m refId blockId argsId : Nat)
    (h : s.slotsPtr < σ.length) :
    ((s.child σ).2.getCallerScope = s.getCallerScope)
    ∧ (Scope.getSlot s ((s.child σ).2.bindSymbol (s.child σ).1 n refId) m = s.getSlot σ m)
    ∧ (Scope.getSlot s ((s.child σ).2.bindBlock (s.child σ).1 n blockId) m = s.getSlot σ m)
    ∧ (Scope.getSlot s ((s.child σ).2.bindPartialArgs (s.child σ).1 n argsId) m
        = s.getSlot σ m)
    ∧ (Scope.getSlot (s.child σ).2 (s.bindSymbol (s.child σ).1 n refId) m
        = Scope.getSlot (s.child σ).2 (s.child σ).1 m)
    ∧ (Scope.getSlot (s.child σ).2 (s.bindBlock (s.child σ).1 n blockId) m
        = Scope.getSlot (s.child σ).2 (s.child σ).1 m)
    ∧ (Scope.getSlot (s.child σ).2 (s.bindPartialArgs (s.child σ).1 n argsId) m
        = Scope.getSlot (s.child σ).2 (s.child σ).1 m) := by
  refine ⟨rfl, ?_, ?_, ?_, ?_, ?_, ?_⟩
  · exact getSlot_after_child_bind σ s s.getCallerScope _ n m _ h
  · exact getSlot_after_child_bind σ s s.getCallerScope _ n m _ h
  · exact getSlot_after_child_bind σ s s.getCallerScope _ n m _ h
  · exact getSlot_parent_bind_preserves_child σ s s.getCallerScope _ n m _ h
  · exact getSlot_parent_bind_preserves_child σ s s.getCallerScope _ n m _ h
  · exact getSlot_parent_bind_preserves_child σ s s.getCallerScope _ n m _ h

/-- A one-array store and the scope pointing at it, for the C6 witness. -/
def storeW : Store := [[ScopeSlot.ref 5, ScopeSlot.block 9]]

def scopeW : Scope := .mk 0 none

/-- Witness for C6 on a concrete one-scope store. -/
theorem scope_child_isolation_witness :
    (scopeW.slotsPtr < storeW.length)
    ∧ (((scopeW.child storeW).2.getCallerScope = scopeW.getCallerScope)
      ∧ (Scope.getSlot scopeW ((scopeW.child storeW).2.bindSymbol (scopeW.child storeW).1 1 7) 1
          = scopeW.getSlot storeW 1)
      ∧ (Scope.getSlot scopeW ((scopeW.child storeW).2.bindBlock (scopeW.child storeW).1 1 8) 1
          = scopeW.getSlot storeW 1)
      ∧ (Scope.getSlot scopeW
            ((scopeW.child storeW).2.bindPartialArgs (scopeW.child storeW).1 1 9) 1
          = scopeW.getSlot storeW 1)
      ∧ (Scope.getSlot (scopeW.child storeW).2 (scopeW.bindSymbol (scopeW.child storeW).1 1 7) 1
          = Scope.getSlot (scopeW.child storeW).2 (scopeW.child storeW).1 1)
      ∧ (Scope.getSlot (scopeW.child storeW).2 (scopeW.bindBlock (scopeW.child storeW).1 1 8) 1
          = Scope.getSlot (scopeW.child storeW).2 (scopeW.child storeW).1 1)
      ∧ (Scope.getSlot (scopeW.child storeW).2
            (scopeW.bindPartialArgs (scopeW.child storeW).1 1 9) 1
          = Scope.getSlot (scopeW.child storeW).2 (scopeW.child storeW).1 1)) :=
  ⟨Nat.zero_lt_one, scope_child_isolation storeW scopeW 1 1 7 8 9 Nat.zero_lt_one⟩

/-- The claim-side description of `Environment.statement`: a block
statement whose path is a single segment naming a built-in (`each`, `if`,
`with`, `unless`) yields the corresponding specialized node, and every
other statement passes through unchanged. -/
def statementSpec (s : Stmt) : StatementResult :=
  match s with
  | .block path args i =>
    if path.length = 1 ∧ (path.get? 0).join = some "each" then .refined (.eachNode args)
    else if path.length = 1 ∧ (path.get? 0).join = some "if" then .refined (.ifNode args)
    else if path.length = 1 ∧ (path.get? 0).join = some "with" then .refined (.withNode args)
    else if path.length = 1 ∧ (path.get? 0).join = some "unless" then .refined (.unlessNode args)
    else .original (.block path args i)
  | s => .original s

/-- Claim C7: `Environment.statement` refines exactly the simple block
statements whose single-segment key is a built-in into the specialized
node, independent of the environment (in particular of any registered
user helper), and returns every other statement unchanged. -/
theorem statement_refinement (env env2 : Environment) (s : Stmt) :
    Environment.statement env s = statementSpec s
    ∧ Environment.statement env s = Environment.statement env2 s := by
  have main : ∀ e : Environment, Environment.statement e s = statementSpec s := by
    intro e
    cases s with
    | block path args i =>
      by_cases h1 : path.length = 1
      · obtain ⟨k0, rfl⟩ := List.length_eq_one.mp h1
        cases k0 with
        | none =>
          simp [Environment.statement, parseStatement, refineStatement, statementSpec]
        | some k =>
          by_cases he : k = "each"
          · subst he
            simp [Environment.statement, parseStatement, refineStatement, statementSpec]
          · by_cases hi : k = "if"
            · subst hi
              simp [Environment.statement, parseStatement, refineStatement, statementSpec]
            · by_cases hw : k = "with"
              · subst hw
                simp [Environment.statement, parseStatement, refineStatement, statementSpec]
              · by_cases hu : k = "unless"
                · subst hu
                  simp [Environment.statement, parseStatement, refineStatement,
                    statementSpec]
                · simp [Environment.statement, parseStatement, refineStatement,
                    statementSpec, he, hi, hw, hu]
      · simp [Environment.statement, parseStatement, refineStatement, statementSpec, h1]
    | optimizedAppend value i =>
      cases value <;>
        simp [Environment.statement, parseStatement, refineStatement, statementSpec]
    | modifierStmt path args i =>
      simp [Environment.statement, parseStatement, refineStatement, statementSpec]
    | otherStmt i =>
      simp [Environment.statement, parseStatement, refineStatement, statementSpec]
  exact ⟨main env, (main env).trans (main env2).symm⟩

/-! ### Queue contents of a registration sequence, in FIFO order -/

def opsCreatedComponents (ops : List LifecycleOp) : List Nat :=
  ops.filterMap fun op => match op with | .didCreate c _ => some c | _ => none

def opsCreatedManagers (ops : List LifecycleOp) : List Nat :=
  ops.filterMap fun op => match op with | .didCreate _ m => some m | _ => none

def opsUpdatedComponents (ops : List LifecycleOp) : List Nat :=
  ops.filterMap fun op => match op with | .didUpdate c _ => some c | _ => none

def opsUpdatedManagers (ops : List LifecycleOp) : List Nat :=
  ops.filterMap fun op => match op with | .didUpdate _ m => some m | _ => none

def opsInstallManagers (ops : List LifecycleOp) : List Nat :=
  ops.filterMap fun op => match op with | .scheduleInstallModifier _ m => some m | _ => none

def opsInstallModifiers (ops : List LifecycleOp) : List Nat :=
  ops.filterMap fun op => match op with | .scheduleInstallModifier mo _ => some mo | _ => none

def opsUpdateModifierManagers (ops : List LifecycleOp) : List Nat :=
  ops.filterMap fun op => match op with | .scheduleUpdateModifier _ m => some m | _ => none

def opsUpdateModifiers (ops : List LifecycleOp) : List Nat :=
  ops.filterMap fun op => match op with | .scheduleUpdateModifier mo _ => some mo | _ => none

def opsDestroys (ops : List LifecycleOp) : List Nat :=
  ops.filterMap fun op => match op with | .didDestroy d => some d | _ => none

/-- Running a registration sequence appends to each queue in push order. -/
theorem applyOps_fields (ops : List LifecycleOp) : ∀ t : Transaction,
    applyOps t ops =
      ⟨t.scheduledInstallManagers ++ opsInstallManagers ops,
       t.scheduledInstallModifiers ++ opsInstallModifiers ops,
       t.scheduledUpdateModifierManagers ++ opsUpdateModifierManagers ops,
       t.scheduledUpdateModifiers ++ opsUpdateModifiers ops,
       t.createdComponents ++ opsCreatedComponents ops,
       t.createdManagers ++ opsCreatedManagers ops,
       t.updatedComponents ++ opsUpdatedComponents ops,
       t.updatedManagers ++ opsUpdatedManagers ops,
       t.destructors ++ opsDestroys ops⟩ := by
  induction ops with
  | nil =>
    intro t
    simp [applyOps, opsInstallManagers, opsInstallModifiers, opsUpdateModifierManagers,
      opsUpdateModifiers, opsCreatedComponents, opsCreatedManagers, opsUpdatedComponents,
      opsUpdatedManagers, opsDestroys]
  | cons op ops ih =>
    intro t
    have step : applyOps t (op :: ops) = applyOps (applyOp t op) ops := rfl
    rw [step, ih]
    cases op <;>
      simp [applyOp, Transaction.didCreate, Transaction.didUpdate,
        Transaction.scheduleInstallModifier, Transaction.scheduleUpdateModifier,
        Transaction.didDestroy, opsInstallManagers, opsInstallModifiers,
        opsUpdateModifierManagers, opsUpdateModifiers, opsCreatedComponents,
        opsCreatedManagers, opsUpdatedComponents, opsUpdatedManagers, opsDestroys,
        List.filterMap_cons]

theorem created_events_eq (ops : List LifecycleOp) :
    ((opsCreatedComponents ops).zip (opsCreatedManagers ops)).map
        (fun p => LifecycleEvent.didCreate p.1 p.2)
      = createEvents ops := by
  induction ops with
  | nil => rfl
  | cons op ops ih =>
    simp only [opsCreatedComponents, opsCreatedManagers, createEvents] at ih ⊢
    cases op <;> simp [List.filterMap_cons, ih]

theorem updated_events_eq (ops : List LifecycleOp) :
    ((opsUpdatedComponents ops).zip (opsUpdatedManagers ops)).map
        (fun p => LifecycleEvent.didUpdate p.1 p.2)
      = updateEvents ops := by
  induction ops with
  | nil => rfl
  | cons op ops ih =>
    simp only [opsUpdatedComponents, opsUpdatedManagers, updateEvents] at ih ⊢
    cases op <;> simp [List.filterMap_cons, ih]

theorem destroy_events_eq (ops : List LifecycleOp) :
    (opsDestroys ops).map LifecycleEvent.destroy = destroyEvents ops := by
  induction ops with
  | nil => rfl
  | cons op ops ih =>
    simp only [opsDestroys, destroyEvents] at ih ⊢
    cases op <;> simp [List.filterMap_cons, ih]

theorem install_events_eq (ops : List LifecycleOp) :
    ((opsInstallManagers ops).zip (opsInstallModifiers ops)).map
        (fun p => LifecycleEvent.install p.2 p.1)
      = installEvents ops := by
  induction ops with
  | nil => rfl
  | cons op ops ih =>
    simp only [opsInstallManagers, opsInstallModifiers, installEvents] at ih ⊢
    cases op <;> simp [List.filterMap_cons, ih]

theorem modifier_update_events_eq (ops : List LifecycleOp) :
    ((opsUpdateModifierManagers ops).zip (opsUpdateModifiers ops)).map
        (fun p => LifecycleEvent.update p.2 p.1)
      = modifierUpdateEvents ops := by
  induction ops with
  | nil => rfl
  | cons op ops ih =>
    simp only [opsUpdateModifierManagers, opsUpdateModifiers, modifierUpdateEvents] at ih ⊢
    cases op <;> simp [List.filterMap_cons, ih]

/-- Claim C1: for a transaction built by any sequence of lifecycle
registrations, `commit()` invokes the queued callbacks as the
concatenation of the five queues in the fixed order component didCreate,
component didUpdate, destructor destroy, modifier install, modifier
update, each queue in the FIFO order in which its callbacks were
registered. -/
theorem transaction_commit_order (ops : List LifecycleOp) :
    (applyOps emptyTransaction ops).commit
      = createEvents ops ++ updateEvents ops ++ destroyEvents ops
        ++ installEvents ops ++ modifierUpdateEvents ops := by
  rw [applyOps_fields ops emptyTransaction]
  show ((opsCreatedComponents ops).zip (opsCreatedManagers ops)).map
        (fun p => LifecycleEvent.didCreate p.1 p.2)
      ++ ((opsUpdatedComponents ops).zip (opsUpdatedManagers ops)).map
        (fun p => LifecycleEvent.didUpdate p.1 p.2)
      ++ (opsDestroys ops).map LifecycleEvent.destroy
      ++ ((opsInstallManagers ops).zip (opsInstallModifiers ops)).map
        (fun p => LifecycleEvent.install p.2 p.1)
      ++ ((opsUpdateModifierManagers ops).zip (opsUpdateModifiers ops)).map
        (fun p => LifecycleEvent.update p.2 p.1)
      = _
  rw [created_events_eq, updated_events_eq, destroy_events_eq, install_events_eq,
    modifier_update_events_eq]

end Glimmer
